import Mathlib

/-!
# Verification of the IndoGap analytical core

Shallow embedding of the similarity / category / seven-dimension scoring
pipeline of the IndoGap repository
(`mini_services/processors/similarity.py`, `mini_services/processors/text_processor.py`,
`mini_services/scoring/base.py`, `mini_services/scoring/seven_dimensions.py`),
together with theorems settling the specification claims about it.

Python floats are modelled as exact rationals (`ℚ`), Python ints as `ℤ`/`ℕ`,
Python strings as Lean `String` (ASCII data throughout; `Char.toLower` models
`str.lower()` on the ASCII inputs that occur here), Python lists as `List`,
Python sets as `Finset` obtained via `List.toFinset`, and raised exceptions as
`Except.error`.
-/

namespace Indogap

/-! ## String helpers

`strContains hay needle` models the Python expression `needle in hay`
(substring containment; the empty needle is contained in every string). -/

/-- Helper for substring search: `isLeadOf n h` holds when the char list `n` is an initial segment of `h`. -/
def isLeadOf : List Char → List Char → Bool
  | [], _ => true
  | _ :: _, [] => false
  | a :: as, b :: bs => a == b && isLeadOf as bs

/-- Helper for substring search: `subList n h` holds when the char list `n` occurs contiguously inside `h`
(Python `n in h` on strings). -/
def subList (n : List Char) : List Char → Bool
  | [] => isLeadOf n []
  | c :: cs => isLeadOf n (c :: cs) || subList n cs

/-- Python `needle in hay` for strings. -/
def strContains (hay needle : String) : Bool :=
  subList needle.data hay.data

/-- Python `text.lower()` (ASCII range, which covers all inputs used here).
Written on the character list so that it evaluates by kernel reduction. -/
def lowerStr (s : String) : String :=
  String.mk (s.data.map Char.toLower)

/-- Python `any(w in hay for w in ws)`. -/
def anyIn (hay : String) (ws : List String) : Bool :=
  ws.any (fun w => strContains hay w)

/-! ## Stable descending sort

Python's `sorted(xs, key=k, reverse=True)` and `xs.sort(key=k, reverse=True)`
are stable sorts in descending key order: elements with equal keys keep their
input order.  We model them by a stable insertion sort: a new element is
inserted *before* the first element whose key is not larger, so it lands after
every strictly-larger key and before every equal key coming from later input
positions. -/

variable {α : Type}

/-- Insert `x` into `l` (assumed sorted by descending `key`), before the first
element whose key is `≤ key x`. -/
def insertD (key : α → ℚ) (x : α) : List α → List α
  | [] => [x]
  | y :: ys => if key y ≤ key x then x :: y :: ys else y :: insertD key x ys

/-- Stable sort in descending `key` order. -/
def sortD (key : α → ℚ) : List α → List α
  | [] => []
  | x :: xs => insertD key x (sortD key xs)

theorem insertD_perm (key : α → ℚ) (x : α) (l : List α) :
    (insertD key x l).Perm (x :: l) := by
  induction l with
  | nil => simp [insertD]
  | cons y ys ih =>
      by_cases h : key y ≤ key x
      · simp [insertD, h]
      · simp only [insertD, h, if_neg, ite_false]
        exact ((ih.cons y).trans (List.Perm.swap x y ys))

theorem sortD_perm (key : α → ℚ) (l : List α) : (sortD key l).Perm l := by
  induction l with
  | nil => simp [sortD]
  | cons x xs ih =>
      exact (insertD_perm key x (sortD key xs)).trans (ih.cons x)

theorem mem_insertD {key : α → ℚ} {x z : α} {l : List α}
    (h : z ∈ insertD key x l) : z = x ∨ z ∈ l := by
  have := (insertD_perm key x l).mem_iff.mp h
  simpa using this

/-- Inserting preserves descending sortedness. -/
theorem insertD_sorted (key : α → ℚ) (x : α) {l : List α}
    (h : l.Pairwise (fun a b => key b ≤ key a)) :
    (insertD key x l).Pairwise (fun a b => key b ≤ key a) := by
  induction l with
  | nil => simp [insertD]
  | cons y ys ih =>
      rcases List.pairwise_cons.mp h with ⟨hy, hys⟩
      by_cases hxy : key y ≤ key x
      · simp only [insertD, hxy, ite_true]
        refine List.pairwise_cons.mpr ⟨?_, h⟩
        intro b hb
        rcases List.mem_cons.mp hb with rfl | hb
        · exact hxy
        · exact le_trans (hy b hb) hxy
      · simp only [insertD, hxy, ite_false]
        refine List.pairwise_cons.mpr ⟨?_, ih hys⟩
        intro b hb
        rcases mem_insertD hb with rfl | hb
        · exact le_of_lt (lt_of_not_le hxy)
        · exact hy b hb

theorem sortD_sorted (key : α → ℚ) (l : List α) :
    (sortD key l).Pairwise (fun a b => key b ≤ key a) := by
  induction l with
  | nil => simp [sortD]
  | cons x xs ih => exact insertD_sorted key x ih

/-- Stability, expressed through filtering on a key value: inserting an element
whose key is `q` puts it before every `q`-keyed element already present, and
inserting an element with a different key leaves the `q`-keyed subsequence
unchanged. -/
theorem insertD_filter (key : α → ℚ) (x : α) (l : List α) (q : ℚ) :
    (insertD key x l).filter (fun a => key a == q) =
      if key x == q then x :: l.filter (fun a => key a == q)
      else l.filter (fun a => key a == q) := by
  induction l with
  | nil =>
      by_cases hx : key x == q <;> simp [insertD, List.filter, hx]
  | cons y ys ih =>
      by_cases hxy : key y ≤ key x
      · by_cases hx : key x == q <;> simp [insertD, hxy, List.filter, hx]
      · have hlt : key x < key y := lt_of_not_le hxy
        by_cases hx : key x == q
        · have hxq : key x = q := by exact_mod_cast of_decide_eq_true hx
          have hyq : (key y == q) = false := by
            apply decide_eq_false
            intro hcontra
            exact absurd (hxq ▸ hcontra) (ne_of_gt (hxq ▸ hlt))
          simp [insertD, hxy, List.filter, hyq, ih, hx]
        · by_cases hy : key y == q <;>
            simp [insertD, hxy, List.filter, hy, ih, hx]

/-- The stable sort preserves, for every key value `q`, the subsequence of
`q`-keyed elements in input order. -/
theorem sortD_filter (key : α → ℚ) (l : List α) (q : ℚ) :
    (sortD key l).filter (fun a => key a == q) =
      l.filter (fun a => key a == q) := by
  induction l with
  | nil => simp [sortD]
  | cons x xs ih =>
      rw [sortD, insertD_filter]
      by_cases hx : key x == q <;> simp [List.filter, hx, ih]

/-! ## Category matcher (`similarity.py`, class `CategoryMatcher`)

The fixed keyword taxonomy `CATEGORY_KEYWORDS`, in Python dict insertion
order, duplicates included (the `fintech` list contains `financial` twice,
exactly as in the source, and duplicated entries are counted twice by the
scoring loop). -/

def CATEGORY_KEYWORDS : List (String × List String) := [
  ("fintech", ["payment", "banking", "finance", "financial", "lending", "credit",
    "invest", "insurance", "wealth", "trading", "crypto", "blockchain",
    "neobank", "pos", "upi", "wallet", "financial", "fintech"]),
  ("e-commerce", ["e-commerce", "ecommerce", "shop", "retail", "marketplace",
    "selling", "purchase", "cart", "checkout", "online store",
    "d2c", "direct to consumer", "b2c"]),
  ("saas", ["saas", "software", "subscription", "b2b", "enterprise",
    "workflow", "automation", "productivity", "tool", "api",
    "cloud", "platform as a service"]),
  ("healthtech", ["health", "medical", "healthcare", "patient", "doctor",
    "hospital", "pharma", "wellness", "fitness", "telehealth",
    "telemedicine", "clinical", "diagnosis"]),
  ("edtech", ["education", "learning", "course", "student", "school",
    "training", "tutoring", "skill", "academic", "university",
    "elearning", "online learning", "k12"]),
  ("food delivery", ["food", "delivery", "restaurant", "eat", "meal",
    "grocery", "kitchen", "catering", "takeout", "dark kitchen",
    "quick commerce", "hyperlocal"]),
  ("logistics", ["logistics", "shipping", "transport", "freight",
    "supply chain", "warehouse", "inventory", "fulfillment",
    "last mile", "delivery"]),
  ("b2b", ["b2b", "business to business", "sme", "smb", "enterprise",
    "procurement", "supply chain", "wholesale"]),
  ("ai/ml", ["artificial intelligence", "machine learning", "ai", "ml",
    "neural", "deep learning", "model", "algorithm", "nlp",
    "computer vision", "generative", "llm", "gpt"]),
  ("consumer", ["consumer", "app", "mobile", "personal", "lifestyle", "daily",
    "end user", "individual", "retail"]),
  ("mobility", ["transport", "taxi", "ride", "mobility", "vehicle", "travel",
    "transportation", "commute", "bike", "scooter"]),
  ("hr tech", ["hr", "human resource", "recruiting", "hiring", "talent",
    "payroll", "employee", "workforce", "performance", "hris"]),
  ("real estate", ["real estate", "property", "housing", "rent", "lease",
    "apartment", "commercial", "mortgage", "proptech"]),
  ("insurtech", ["insurance", "policy", "coverage", "claim", "underwriting",
    "insurtech", "risk"]),
  ("agritech", ["agriculture", "farming", "crop", "farmer", "agritech",
    "food supply", "agri", "farm"]),
  ("climate tech", ["climate", "sustainability", "carbon", "renewable",
    "energy", "environment", "green", "clean tech", "esg"]),
  ("deeptech", ["deeptech", "semiconductor", "chip", "hardware", "robotics",
    "quantum", "biotech", "advanced manufacturing", "space"])]

/-- Inner loop of `CategoryMatcher.infer_category`: sum `len(keyword) * 0.1`
over every keyword of one category that occurs in the lowercased text. -/
def categoryKeywordScore (textLower : String) (kws : List String) : ℚ :=
  kws.foldl (fun acc kw =>
    if strContains textLower kw then acc + (kw.length : ℚ) * (1 / 10) else acc) 0

/-- The per-category score list, in dict insertion order
(`scores` in `infer_category`). -/
def categoryScores (text : String) : List (String × ℚ) :=
  CATEGORY_KEYWORDS.map (fun p => (p.1, categoryKeywordScore (lowerStr text) p.2))

/-- Models `sorted_scores[0][1]` of `infer_category`: the maximal category score
(head of the descending sort; `0` for an empty list, which cannot occur). -/
def maxCategoryScore (text : String) : ℚ :=
  (((sortD Prod.snd (categoryScores text)).head?).map Prod.snd).getD 0

/-- Models `CategoryMatcher.infer_category(text, top_n=2)`. -/
def inferCategory (text : String) (topn : ℕ := 2) : List (String × ℚ) :=
  let sortedScores := sortD Prod.snd (categoryScores text)
  match sortedScores with
  | [] => [("consumer", 1 / 2)]
  | (c, s) :: rest =>
      if s = 0 then [("consumer", 1 / 2)]
      else
        (((c, s) :: rest).take topn).map
          (fun p => (p.1, if s > 0 then p.2 / s else 0))

/-- Models `CategoryMatcher.calculate_category_match(source_categories,
target_categories)`: Jaccard of lowercased category sets, `0.5` when either
input list is empty. -/
def calculateCategoryMatch (sourceCategories targetCategories : List String) : ℚ :=
  if sourceCategories = [] ∨ targetCategories = [] then 1 / 2
  else
    let sourceSet := (sourceCategories.map lowerStr).toFinset
    let targetSet := (targetCategories.map lowerStr).toFinset
    let inter := sourceSet ∩ targetSet
    let uni := sourceSet ∪ targetSet
    if uni = ∅ then 1 / 2
    else (inter.card : ℚ) / (uni.card : ℚ)

/-! ## Similarity engine (`similarity.py`, class `SimilarityEngine`)

The engine's two text-processing collaborators are modelled as function
parameters bundled in the engine state: `descSim` stands for the configured
description-similarity backend
(`TextProcessor.calculate_similarity(·, ·, method='tfidf')`, or the
embedding path with its lexical fallback) and `kwOf` for
`TextProcessor.process(text).keywords`.  Every claim about `compare`,
`find_best_match` and `detect_gap` is proved for all values of these
parameters.  The on-the-fly TF-IDF fit itself is modelled separately below
(section on `text_processor.py`). -/

/-- A company record as consumed from the candidate dictionaries; absent
dict keys default to `""` / `[]` exactly as `company.get(...)` does. -/
structure Company where
  id : String := ""
  name : String := ""
  shortDescription : String := ""
  description : String := ""
  longDescription : String := ""
  tags : List String := []
  categories : List String := []
deriving Repr, DecidableEq

/-- Models `SimilarityEngine._get_company_text`: join the nonempty parts with single
spaces. -/
def getCompanyText (c : Company) : String :=
  String.intercalate " "
    (([c.name, c.shortDescription, c.description, c.longDescription,
       String.intercalate " " c.tags,
       String.intercalate " " c.categories]).filter (fun s => s ≠ ""))

/-- Result record of one comparison (`SimilarityMatch` dataclass).  The
free-text `reasoning` field is omitted: no claim mentions it and it is a
formatted string of the numeric fields. -/
structure SimilarityMatch where
  sourceId : String
  sourceName : String
  targetId : String
  targetName : String
  similarityScore : ℚ
  gapScore : ℚ
  categoryMatch : ℚ
  matchedKeywords : List String
  missingKeywords : List String
deriving Repr, DecidableEq

/-- Engine state: the two text-processing collaborators, the three scoring
weights (defaults `0.6`, `0.3`, `0.1`) and the loaded candidate list
(`_indian_startups`). -/
structure SimEngine where
  descSim : String → String → ℚ
  kwOf : String → List String
  descriptionWeight : ℚ := 6 / 10
  categoryWeight : ℚ := 3 / 10
  keywordWeight : ℚ := 1 / 10
  candidates : List Company := []

/-- Models `SimilarityEngine._keyword_comparison(text1, text2)`: Jaccard of the two
extracted keyword sets.  Note the asymmetry of the source: only an empty
*first* keyword set yields the neutral `0.5` (the `not union` branch is
unreachable once `keywords1` is nonempty). -/
def keywordComparison (kwOf : String → List String) (text1 text2 : String) :
    ℚ × List String × List String :=
  let keywords1 := (kwOf text1).toFinset
  let keywords2 := (kwOf text2).toFinset
  if keywords1 = ∅ then (1 / 2, [], keywords2.sort (· ≤ ·))
  else
    let inter := keywords1 ∩ keywords2
    let uni := keywords1 ∪ keywords2
    if uni = ∅ then (1 / 2, [], [])
    else ((inter.card : ℚ) / (uni.card : ℚ), inter.sort (· ≤ ·),
      ((keywords2 \ keywords1).sort (· ≤ ·)))

/-- Models `SimilarityEngine.compare(source, target)`. -/
def compare (e : SimEngine) (source target : Company) : SimilarityMatch :=
  let sourceText := getCompanyText source
  let targetText := getCompanyText target
  let sourceCategories := source.tags ++ source.categories
  let targetCategories := target.tags ++ target.categories
  let descSim := e.descSim sourceText targetText
  let catMatch := calculateCategoryMatch sourceCategories targetCategories
  let kw := keywordComparison e.kwOf sourceText targetText
  let overall := descSim * e.descriptionWeight + catMatch * e.categoryWeight +
    kw.1 * e.keywordWeight
  { sourceId := source.id
    sourceName := source.name
    targetId := target.id
    targetName := target.name
    similarityScore := overall
    gapScore := 1 - overall
    categoryMatch := catMatch
    matchedKeywords := kw.2.1
    missingKeywords := kw.2.2 }

/-- The `matches` list built by the loop of `find_best_match` /
`find_all_matches`: one `compare` result per loaded candidate, in candidate
order. -/
def scoredMatches (e : SimEngine) (source : Company) : List SimilarityMatch :=
  e.candidates.map (fun t => compare e source t)

/-- Models `SimilarityEngine.find_best_match(source, top_n)`: score every candidate,
stable-sort descending by `similarity_score`, return the first `top_n`. -/
def findBestMatch (e : SimEngine) (source : Company) (topn : ℕ) :
    List SimilarityMatch :=
  if e.candidates = [] then []
  else ((sortD (fun m => m.similarityScore) (scoredMatches e source)).take topn)

/-- Models `SimilarityResult` (fields relevant to the claims; `analysis_method` and
the timestamp are configuration echoes / wall-clock data). -/
structure SimilarityResult where
  sourceId : String
  sourceName : String
  bestMatch : Option SimilarityMatch
  allMatches : List SimilarityMatch
  gapDetected : Bool
  opportunityLevel : String
deriving Repr

/-- Models `SimilarityEngine.detect_gap(source)`. -/
def detectGap (e : SimEngine) (source : Company) : SimilarityResult :=
  let ms := findBestMatch e source 5
  match ms with
  | [] =>
      { sourceId := source.id
        sourceName := source.name
        bestMatch := none
        allMatches := []
        gapDetected := true
        opportunityLevel := "high" }
  | best :: _ =>
      { sourceId := source.id
        sourceName := source.name
        bestMatch := some best
        allMatches := ms
        gapDetected := decide (best.similarityScore < 1 / 2)
        opportunityLevel :=
          if best.similarityScore < 3 / 10 then "high"
          else if best.similarityScore < 1 / 2 then "medium"
          else if best.similarityScore < 7 / 10 then "low"
          else "saturated" }

/-! ## Supporting lemmas for the similarity claims -/

theorem sortD_length (key : α → ℚ) (l : List α) :
    (sortD key l).length = l.length :=
  (sortD_perm key l).length_eq

theorem head?_of_take_eq_cons {l rest : List α} {n : ℕ} {x : α}
    (h : l.take n = x :: rest) : l.head? = some x := by
  cases l with
  | nil => simp at h
  | cons a t =>
      cases n with
      | zero => simp at h
      | succ n =>
          simp only [List.take_succ_cons] at h
          simp [List.head?, (List.cons.injEq _ _ _ _).mp h |>.1]

theorem categoryKeywordScore_foldl_nonneg (textLower : String)
    (kws : List String) (acc : ℚ) (h : 0 ≤ acc) :
    0 ≤ kws.foldl (fun a kw =>
      if strContains textLower kw then a + (kw.length : ℚ) * (1 / 10) else a) acc := by
  induction kws generalizing acc with
  | nil => simpa using h
  | cons k ks ih =>
      simp only [List.foldl_cons]
      by_cases hc : strContains textLower k
      · exact ih _ (by positivity)
      · simp only [hc, if_false, ite_false]
        exact ih _ h

theorem categoryKeywordScore_nonneg (textLower : String) (kws : List String) :
    0 ≤ categoryKeywordScore textLower kws :=
  categoryKeywordScore_foldl_nonneg textLower kws 0 le_rfl

theorem maxCategoryScore_nonneg (text : String) : 0 ≤ maxCategoryScore text := by
  unfold maxCategoryScore
  cases hL : sortD Prod.snd (categoryScores text) with
  | nil => simp
  | cons a t =>
      have hmem : a ∈ sortD Prod.snd (categoryScores text) := by
        rw [hL]
        exact List.mem_cons_self a t
      have hmem2 : a ∈ categoryScores text :=
        (sortD_perm Prod.snd (categoryScores text)).subset hmem
      rcases List.mem_map.mp hmem2 with ⟨q, _, hq⟩
      have h0 : 0 ≤ a.2 := by
        rw [← hq]
        simpa using categoryKeywordScore_nonneg (lowerStr text) q.2
      simpa using h0

/-! ## Claim theorems: similarity engine -/

/-- Claim C4: For every `SimilarityMatch` produced by `compare(source, target)`,
`gap_score` is exactly `1 - similarity_score`, so their sum is exactly `1`. -/
theorem compare_similarity_gap_sum_one (e : SimEngine) (source target : Company) :
    (compare e source target).similarityScore + (compare e source target).gapScore = 1 ∧
    (compare e source target).gapScore = 1 - (compare e source target).similarityScore := by
  constructor <;> simp [compare]

/-- Claim C2 (counterexample): With a keyword extractor that yields a nonempty
keyword set for the source text `"a"` and an empty one for the target text
`"b"`, the keyword_overlap sub-score of `_keyword_comparison` is `0`, not the
neutral `0.5` the claim requires when *either* side is empty. -/
theorem keyword_overlap_empty_target_zero :
    ((fun t => if t = "a" then ["k"] else ([] : List String)) "b" = [] ∧
      (fun t => if t = "a" then ["k"] else ([] : List String)) "a" ≠ []) ∧
    (keywordComparison (fun t => if t = "a" then ["k"] else []) "a" "b").1 = 0 ∧
    ¬ (keywordComparison (fun t => if t = "a" then ["k"] else []) "a" "b").1 = 1 / 2 := by
  have hval : (keywordComparison (fun t => if t = "a" then ["k"] else []) "a" "b").1 = 0 := by
    simp +decide [keywordComparison]
  refine ⟨⟨rfl, by decide⟩, hval, ?_⟩
  rw [hval]
  norm_num

/-- Claim C2 (amended): The keyword_overlap sub-score is the Jaccard index of
the two extracted keyword sets, and the neutral `0.5` applies exactly when the
*source* side's keyword set is empty; a nonempty source side against an empty
target side yields Jaccard `0`. -/
theorem keywordComparison_score_spec (kwOf : String → List String)
    (text1 text2 : String) :
    ((keywordComparison kwOf text1 text2).1 =
      if (kwOf text1).toFinset = ∅ then 1 / 2
      else ((((kwOf text1).toFinset ∩ (kwOf text2).toFinset).card : ℚ) /
        (((kwOf text1).toFinset ∪ (kwOf text2).toFinset).card : ℚ))) ∧
    ((kwOf text1).toFinset ≠ ∅ → (kwOf text2).toFinset = ∅ →
      (keywordComparison kwOf text1 text2).1 = 0) := by
  constructor
  · by_cases h1 : (kwOf text1).toFinset = ∅
    · simp [keywordComparison, h1]
    · have huni : ¬ ((kwOf text1).toFinset ∪ (kwOf text2).toFinset = ∅) := by
        intro hu
        exact h1 (Finset.union_eq_empty.mp hu).1
      simp [keywordComparison, h1, huni]
  · intro h1 h2
    have huni : ¬ ((kwOf text1).toFinset ∪ (kwOf text2).toFinset = ∅) := by
      intro hu
      exact h1 (Finset.union_eq_empty.mp hu).1
    simp [keywordComparison, h1, huni, h2]

/-- Witness for `keywordComparison_score_spec` at a concrete extractor with a
nonempty source-side and empty target-side keyword set. -/
theorem keywordComparison_score_spec_witness :
    (keywordComparison (fun t => if t = "src" then ["w"] else []) "src" "tgt").1 = 0 := by
  have h := keywordComparison_score_spec (fun t => if t = "src" then ["w"] else []) "src" "tgt"
  exact h.2 (by decide) (by decide)

/-- Claim C7: `find_best_match(source, top_n)` returns the first `top_n` of the
per-candidate comparison results sorted stably in descending
`similarity_score` order: the sorted list is a permutation of the scored
candidate list, the returned list is sorted descending, and for every score
value the sorted list keeps the candidates of that score in input order. -/
theorem findBestMatch_spec (e : SimEngine) (source : Company) (topn : ℕ) :
    (findBestMatch e source topn =
      (sortD (fun m => m.similarityScore) (scoredMatches e source)).take topn) ∧
    ((sortD (fun m => m.similarityScore) (scoredMatches e source)).Perm
      (scoredMatches e source)) ∧
    ((findBestMatch e source topn).Pairwise
      (fun a b => b.similarityScore ≤ a.similarityScore)) ∧
    (∀ q : ℚ,
      (sortD (fun m => m.similarityScore) (scoredMatches e source)).filter
          (fun m => m.similarityScore == q) =
        (scoredMatches e source).filter (fun m => m.similarityScore == q)) := by
  refine ⟨?_, sortD_perm _ _, ?_, fun q => sortD_filter _ _ q⟩
  · by_cases h : e.candidates = []
    · simp [findBestMatch, h, scoredMatches, sortD]
    · simp [findBestMatch, h]
  · by_cases h : e.candidates = []
    · simp [findBestMatch, h]
    · simp only [findBestMatch, h, if_neg, ite_false]
      exact (sortD_sorted _ _).sublist (List.take_sublist _ _)

/-- Claim C3: `detect_gap(source)`: the best match is the head of the
descending-sorted scored list; an empty candidate set yields
`gap_detected = true` and `opportunity_level = "high"`; otherwise there is a
best match, classified by the fixed thresholds, with `gap_detected` exactly
when its similarity_score is below `0.5`. -/
theorem detectGap_spec (e : SimEngine) (source : Company) :
    ((detectGap e source).bestMatch =
      (sortD (fun m => m.similarityScore) (scoredMatches e source)).head?) ∧
    (e.candidates = [] →
      (detectGap e source).gapDetected = true ∧
      (detectGap e source).opportunityLevel = "high") ∧
    (∀ m, (detectGap e source).bestMatch = some m →
      ((detectGap e source).gapDetected = true ↔ m.similarityScore < 1 / 2) ∧
      (detectGap e source).opportunityLevel =
        (if m.similarityScore < 3 / 10 then "high"
         else if m.similarityScore < 1 / 2 then "medium"
         else if m.similarityScore < 7 / 10 then "low"
         else "saturated")) ∧
    (e.candidates ≠ [] → ∃ m, (detectGap e source).bestMatch = some m) := by
  rcases hfb : findBestMatch e source 5 with _ | ⟨best, rest⟩
  · have hnil : e.candidates = [] := by
      by_contra hne
      have h5 : (sortD (fun m => m.similarityScore) (scoredMatches e source)).take 5 = [] := by
        simpa [findBestMatch, hne] using hfb
      rcases List.take_eq_nil_iff.mp h5 with h5 | h5
      · exact absurd h5 (by norm_num)
      · have := sortD_length (fun m => m.similarityScore) (scoredMatches e source)
        rw [h5] at this
        simp only [List.length_nil] at this
        have hlen : e.candidates.length = 0 := by
          simpa [scoredMatches] using this.symm
        exact hne (List.length_eq_zero.mp hlen)
    have hsort : sortD (fun m => m.similarityScore) (scoredMatches e source) = [] := by
      simp [scoredMatches, hnil, sortD]
    refine ⟨?_, fun _ => ?_, fun m hm => ?_, fun hne => absurd hnil hne⟩
    · simp [detectGap, hfb, hsort]
    · constructor <;> simp [detectGap, hfb]
    · simp [detectGap, hfb] at hm
  · have hne : e.candidates ≠ [] := by
      intro hnil
      rw [findBestMatch, if_pos hnil] at hfb
      exact List.noConfusion hfb
    have htake : (sortD (fun m => m.similarityScore) (scoredMatches e source)).take 5 =
        best :: rest := by
      simpa [findBestMatch, hne] using hfb
    refine ⟨?_, fun h => absurd h hne, fun m hm => ?_, fun _ => ⟨best, ?_⟩⟩
    · rw [head?_of_take_eq_cons htake]
      simp [detectGap, hfb]
    · have hmb : best = m := by
        have h2 := hm
        simp only [detectGap, hfb, Option.some.injEq] at h2
        exact h2
      subst hmb
      constructor
      · simp [detectGap, hfb]
      · simp [detectGap, hfb]
    · simp [detectGap, hfb]

/-- Concrete text-processing collaborators used by witnesses: a
description-similarity backend returning `0` and a keyword extractor
returning no keywords. -/
def descSimZero : String → String → ℚ := fun _ _ => 0

/-- Keyword extractor returning no keywords (as `process` does on empty or
stopword-only text). -/
def kwOfNone : String → List String := fun _ => []

/-- Engine with no loaded candidates. -/
def engEmpty : SimEngine :=
  { descSim := descSimZero, kwOf := kwOfNone, candidates := [] }

/-- A default (all-fields-empty) candidate company. -/
def companyW : Company := {}

/-- Engine with a single loaded candidate. -/
def engOne : SimEngine :=
  { descSim := descSimZero, kwOf := kwOfNone, candidates := [companyW] }

/-- Source company used by the witnesses. -/
def srcW : Company := { name := "X" }

/-- Witness for `detectGap_spec`: concrete engines with zero and one
candidate. -/
theorem detectGap_spec_witness :
    ((detectGap engEmpty srcW).gapDetected = true ∧
      (detectGap engEmpty srcW).opportunityLevel = "high") ∧
    ((detectGap engOne srcW).gapDetected = true ↔
      (compare engOne srcW companyW).similarityScore < 1 / 2) ∧
    (∃ m, (detectGap engOne srcW).bestMatch = some m) := by
  have hE := detectGap_spec engEmpty srcW
  have hO := detectGap_spec engOne srcW
  refine ⟨hE.2.1 rfl, ?_, hO.2.2.2 (by decide)⟩
  have hb : (detectGap engOne srcW).bestMatch = some (compare engOne srcW companyW) := by
    rfl
  exact (hO.2.2.1 _ hb).1

/-- Unfolding equation for `infer_category` given the sorted score list. -/
theorem inferCategory_eq (text : String) (topn : ℕ) (c : String) (s : ℚ)
    (rest : List (String × ℚ))
    (hL : sortD Prod.snd (categoryScores text) = (c, s) :: rest) :
    inferCategory text topn =
      if s = 0 then [("consumer", 1 / 2)]
      else (((c, s) :: rest).take topn).map
        (fun p => (p.1, if s > 0 then p.2 / s else 0)) := by
  simp only [inferCategory]
  rw [hL]

/-- Natural-number version of the per-category scoring loop (total hit
length, in characters); used to evaluate the rational scores through the
kernel. -/
def keywordHitLen (textLower : String) (kws : List String) : ℕ :=
  kws.foldl (fun acc kw => if strContains textLower kw then acc + kw.length else acc) 0

theorem categoryKeywordScore_foldl_eq (textLower : String) (kws : List String)
    (a : ℕ) :
    kws.foldl (fun acc kw =>
        if strContains textLower kw then acc + (kw.length : ℚ) * (1 / 10) else acc)
      ((a : ℚ) / 10) =
    ((kws.foldl (fun acc kw =>
        if strContains textLower kw then acc + kw.length else acc) a : ℕ) : ℚ) / 10 := by
  induction kws generalizing a with
  | nil => simp
  | cons k ks ih =>
      simp only [List.foldl_cons]
      by_cases hc : strContains textLower k
      · rw [if_pos hc, if_pos hc, show ((a : ℚ) / 10 + (k.length : ℚ) * (1 / 10)) =
          (((a + k.length : ℕ) : ℚ) / 10) by push_cast; ring, ih]
      · rw [if_neg hc, if_neg hc, ih]

/-- The rational category score is the natural hit length divided by ten. -/
theorem categoryKeywordScore_eq (textLower : String) (kws : List String) :
    categoryKeywordScore textLower kws = (keywordHitLen textLower kws : ℚ) / 10 := by
  have h := categoryKeywordScore_foldl_eq textLower kws 0
  simpa [categoryKeywordScore, keywordHitLen] using h

theorem categoryScores_eq (text : String) :
    categoryScores text =
      (CATEGORY_KEYWORDS.map
        (fun p => (p.1, keywordHitLen (lowerStr text) p.2))).map
        (fun p => (p.1, (p.2 : ℚ) / 10)) := by
  rw [List.map_map]
  unfold categoryScores
  apply List.map_congr_left
  intro p _
  rw [Function.comp_apply, categoryKeywordScore_eq]

/-- Per-category hit lengths on the text `"quantum"`: only `deeptech` has a
hit (the keyword `quantum`, length 7). -/
theorem quantum_hit_lengths :
    CATEGORY_KEYWORDS.map
        (fun p => (p.1, keywordHitLen (lowerStr "quantum") p.2)) =
      [("fintech", 0), ("e-commerce", 0), ("saas", 0), ("healthtech", 0),
       ("edtech", 0), ("food delivery", 0), ("logistics", 0), ("b2b", 0),
       ("ai/ml", 0), ("consumer", 0), ("mobility", 0), ("hr tech", 0),
       ("real estate", 0), ("insurtech", 0), ("agritech", 0),
       ("climate tech", 0), ("deeptech", 7)] := by
  decide

theorem quantum_sorted :
    sortD Prod.snd (categoryScores "quantum") =
      ("deeptech", (7 : ℚ) / 10) ::
        [("fintech", 0), ("e-commerce", 0), ("saas", 0), ("healthtech", 0),
         ("edtech", 0), ("food delivery", 0), ("logistics", 0), ("b2b", 0),
         ("ai/ml", 0), ("consumer", 0), ("mobility", 0), ("hr tech", 0),
         ("real estate", 0), ("insurtech", 0), ("agritech", 0),
         ("climate tech", 0)] := by
  rw [categoryScores_eq, quantum_hit_lengths]
  norm_num [sortD, insertD]

/-- Claim C6 (counterexample): On the text `"quantum"` only the `deeptech`
category has any keyword hit, yet `infer_category` returns `fintech` — a
category with zero keyword hits — as its second entry, refuting the claim
that zero-hit categories are never included. -/
theorem inferCategory_zero_hit_included :
    inferCategory "quantum" 2 = [("deeptech", 1), ("fintech", 0)] ∧
    ("fintech", (0 : ℚ)) ∈ inferCategory "quantum" 2 ∧
    keywordHitLen (lowerStr "quantum")
      ((CATEGORY_KEYWORDS.lookup "fintech").getD []) = 0 := by
  have hval : inferCategory "quantum" 2 = [("deeptech", 1), ("fintech", 0)] := by
    rw [inferCategory_eq "quantum" 2 "deeptech" ((7 : ℚ) / 10) _ quantum_sorted]
    norm_num
  refine ⟨hval, by rw [hval]; simp, by decide⟩

/-- Claim C6 (amended): `infer_category` scores each category by summing
`len(keyword) * 0.1` over substring hits, normalizes the returned scores by
the maximal score, and returns the single entry `("consumer", 0.5)` when no
category has a hit; otherwise it returns the first `top_n` categories in
stable descending score order — a window that may include zero-hit
categories. -/
theorem inferCategory_spec (text : String) (topn : ℕ) :
    (maxCategoryScore text = 0 →
      inferCategory text topn = [("consumer", 1 / 2)]) ∧
    (maxCategoryScore text ≠ 0 →
      (∀ p ∈ inferCategory text topn, ∃ q ∈ categoryScores text,
        p = (q.1, q.2 / maxCategoryScore text)) ∧
      ((inferCategory text topn).Pairwise (fun p q => q.2 ≤ p.2)) ∧
      (inferCategory text topn).length = min topn CATEGORY_KEYWORDS.length) := by
  rcases hL : sortD Prod.snd (categoryScores text) with _ | ⟨⟨c, s⟩, rest⟩
  · exfalso
    have hlen : (categoryScores text).length = 17 := by
      simp [categoryScores, CATEGORY_KEYWORDS]
    have h17 : (sortD Prod.snd (categoryScores text)).length = 17 := by
      rw [sortD_length, hlen]
    rw [hL] at h17
    simp at h17
  · have hmax : maxCategoryScore text = s := by
      simp [maxCategoryScore, hL]
    constructor
    · intro h0
      rw [hmax] at h0
      rw [inferCategory_eq text topn c s rest hL, if_pos h0]
    · intro hne
      rw [hmax] at hne
      have hge : 0 ≤ s := by
        have h := maxCategoryScore_nonneg text
        rwa [hmax] at h
      have hpos : 0 < s := lt_of_le_of_ne hge (Ne.symm hne)
      have hresult : inferCategory text topn =
          ((((c, s) :: rest).take topn).map (fun p => (p.1, p.2 / s))) := by
        rw [inferCategory_eq text topn c s rest hL, if_neg hne]
        apply List.map_congr_left
        intro p _
        rw [if_pos hpos]
      refine ⟨?_, ?_, ?_⟩
      · intro p hp
        rw [hresult] at hp
        rcases List.mem_map.mp hp with ⟨q, hq, rfl⟩
        have hq2 : q ∈ sortD Prod.snd (categoryScores text) := by
          rw [hL]
          exact (List.take_sublist _ _).mem hq
        exact ⟨q, (sortD_perm _ _).subset hq2, by rw [hmax]⟩
      · rw [hresult]
        rw [List.pairwise_map]
        have hsorted : ((c, s) :: rest).Pairwise
            (fun a b : String × ℚ => b.2 ≤ a.2) := by
          rw [← hL]
          exact sortD_sorted _ _
        refine (hsorted.sublist (List.take_sublist _ _)).imp ?_
        intro a b hab
        exact (div_le_div_iff_of_pos_right hpos).mpr hab
      · rw [hresult]
        have hlen : ((c, s) :: rest).length = (categoryScores text).length := by
          rw [← hL]
          exact sortD_length _ _
        rw [List.length_map, List.length_take, hlen]
        simp [categoryScores]

/-- Per-category hit lengths on the no-hit text `"zzz"`. -/
theorem zzz_hit_lengths :
    CATEGORY_KEYWORDS.map
        (fun p => (p.1, keywordHitLen (lowerStr "zzz") p.2)) =
      [("fintech", 0), ("e-commerce", 0), ("saas", 0), ("healthtech", 0),
       ("edtech", 0), ("food delivery", 0), ("logistics", 0), ("b2b", 0),
       ("ai/ml", 0), ("consumer", 0), ("mobility", 0), ("hr tech", 0),
       ("real estate", 0), ("insurtech", 0), ("agritech", 0),
       ("climate tech", 0), ("deeptech", 0)] := by
  decide

theorem zzz_sorted :
    sortD Prod.snd (categoryScores "zzz") =
      [("fintech", (0 : ℚ)), ("e-commerce", 0), ("saas", 0), ("healthtech", 0),
       ("edtech", 0), ("food delivery", 0), ("logistics", 0), ("b2b", 0),
       ("ai/ml", 0), ("consumer", 0), ("mobility", 0), ("hr tech", 0),
       ("real estate", 0), ("insurtech", 0), ("agritech", 0),
       ("climate tech", 0), ("deeptech", 0)] := by
  rw [categoryScores_eq, zzz_hit_lengths]
  norm_num [sortD, insertD]

/-- Witness for `inferCategory_spec` at the no-hit text `"zzz"` and the
single-hit text `"quantum"`. -/
theorem inferCategory_spec_witness :
    inferCategory "zzz" 2 = [("consumer", 1 / 2)] ∧
    (inferCategory "quantum" 2).length = min 2 CATEGORY_KEYWORDS.length := by
  have hz := inferCategory_spec "zzz" 2
  have hq := inferCategory_spec "quantum" 2
  have hmz : maxCategoryScore "zzz" = 0 := by
    simp [maxCategoryScore, zzz_sorted]
  have hmq : maxCategoryScore "quantum" ≠ 0 := by
    simp only [maxCategoryScore, quantum_sorted]
    norm_num
  exact ⟨hz.1 hmz, (hq.2 hmq).2.2⟩

/-! ## Scoring data model (`scoring/base.py`)

`DimensionScore.score` is a Python `int` (ℤ); the float fields are exact
rationals. -/

/-- Models `ScoringRequest` (the fields the scoring paths read; `source_market`,
`best_match`, `context` and the two include-flags only affect omitted
free-text outputs). -/
structure ScoringRequest where
  opportunityId : String
  startupName : String
  startupDescription : String
  tags : List String := []
deriving Repr, DecidableEq

/-- Models `DimensionScore` dataclass with its source defaults. -/
structure DimensionScore where
  dimension : String
  score : ℤ := 5
  weight : ℚ := 15 / 100
  reasoning : String := ""
  confidence : ℚ := 8 / 10
  evidence : List String := []
  warnings : List String := []
deriving Repr, DecidableEq

/-- Models `ScoringResponse` (fields relevant to the claims; the recommendation
text, next-step list, reasoning summary and latency metadata are omitted —
no claim mentions them). -/
structure ScoringResponse where
  opportunityId : String
  overallScore : ℚ := 0
  dimensions : List (String × DimensionScore) := []
  opportunityLevel : String := "unknown"
  method : String := "rule_based"
  errors : List String := []
deriving Repr

/-- Models `BaseScorer.validate_request`. -/
def validateRequest (req : ScoringRequest) : Bool × String :=
  if req.opportunityId = "" then (false, "Missing opportunity_id")
  else if req.startupName = "" then (false, "Missing startup_name")
  else if req.startupDescription = "" then (false, "Missing startup_description")
  else (true, "")

/-- The weight used for one dimension by `calculate_overall_score`:
`dim_score.weight or weights.get(dim_name, 0.15)` — a zero stored weight
(falsy float) falls back to the weight table. -/
def effectiveWeight (weights : List (String × ℚ)) (p : String × DimensionScore) : ℚ :=
  if p.2.weight = 0 then (weights.lookup p.1).getD (15 / 100) else p.2.weight

/-- Models `BaseScorer.calculate_overall_score`: weighted mean of dimension scores
divided by ten. -/
def calculateOverallScore (dims : List (String × DimensionScore))
    (weights : List (String × ℚ)) : ℚ :=
  if dims = [] then 0
  else
    let totals := dims.foldl (fun (t : ℚ × ℚ) p =>
      (t.1 + (p.2.score : ℚ) * effectiveWeight weights p,
       t.2 + effectiveWeight weights p)) (0, 0)
    if totals.2 = 0 then 0
    else (totals.1 / totals.2) / 10

/-- Models `BaseScorer.determine_opportunity_level`. -/
def determineOpportunityLevel (overall : ℚ) : String :=
  if overall ≥ 7 / 10 then "high"
  else if overall ≥ 5 / 10 then "medium"
  else if overall ≥ 3 / 10 then "low"
  else "very_low"

/-! ## Seven-dimension scorer (`scoring/seven_dimensions.py`)

`INDIA_MARKET_KNOWLEDGE` tables, then the seven rule-based scorers.  The
clamp `min(10, max(1, score))` applied by every scorer is `clamp110`. -/

def highPaymentReadinessCategories : List String :=
  ["b2b software", "enterprise software", "saas", "productivity tools",
   "fintech", "financial services", "investment", "insurance"]

def lowPaymentReadinessCategories : List String :=
  ["b2c consumer", "social media", "entertainment", "gaming",
   "consumer apps", "lifestyle", "dating", "dating apps"]

def highLogisticsCategories : List String :=
  ["food delivery", "grocery delivery", "logistics", "supply chain",
   "e-commerce fulfillment", "last mile delivery", "physical products"]

def lowLogisticsCategories : List String :=
  ["software", "saas", "ai tools", "api services", "digital products",
   "online courses", "content platforms"]

def highRegulatoryRiskCategories : List String :=
  ["fintech", "lending", "crypto", "blockchain", "healthcare",
   "education", "gaming", "gambling", "adult", "insurance",
   "financial services", "telecom"]

def highCulturalFitCategories : List String :=
  ["payments", "shopping", "food", "education", "healthcare",
   "mobility", "communication", "social"]

def timingRipeCategories : List String :=
  ["ai", "automation", "saas", "b2b software", "fintech"]

def timingSaturatedCategories : List String :=
  ["food delivery", "ride sharing", "edtech", "ecommerce"]

def timingEarlyCategories : List String :=
  ["climate tech", "space tech", "synthetic biology"]

/-- The `min(10, max(1, score))` clamp applied to every dimension score. -/
def clamp110 (s : ℤ) : ℤ := min 10 (max 1 s)

/-- Default scoring weights assigned by `SevenDimensionScorer.__init__`
(a hard-coded dict literal; the constructor takes no weight argument and
performs no validation on it). -/
def defaultWeights : List (String × ℚ) :=
  [("cultural_fit", 15 / 100), ("logistics", 15 / 100),
   ("payment_readiness", 15 / 100), ("timing", 15 / 100),
   ("monopoly_potential", 10 / 100), ("regulatory_risk", 15 / 100),
   ("execution_feasibility", 15 / 100)]

/-- Models `self.weights.get(dimension, 0.15)`. -/
def weightsGet (weights : List (String × ℚ)) (dim : String) : ℚ :=
  (weights.lookup dim).getD (15 / 100)

/-- Accumulator for the rule scans: running score plus the reasoning,
evidence and warning fragments appended by fired rules. -/
structure RuleAcc where
  score : ℤ
  reasoning : List String := []
  evidence : List String := []
  warnings : List String := []

/-- Models `for item in items: if item in combined: <adjust>` -/
def scanList (combined : String) (items : List String)
    (f : RuleAcc → String → RuleAcc) (acc : RuleAcc) : RuleAcc :=
  items.foldl (fun a kw => if strContains combined kw then f a kw else a) acc

/-- Models `"; ".join(parts) if parts else dflt` -/
def joinOrDefault (parts : List String) (dflt : String) : String :=
  if parts = [] then dflt else String.intercalate "; " parts

/-- Models `" ".join(tags + [description])` over the lowercased fields. -/
def combinedText (req : ScoringRequest) : String :=
  String.intercalate " " (req.tags.map lowerStr ++ [lowerStr req.startupDescription])

/-- The cultural-barrier pairs of `_score_cultural_fit` (keyword, warning). -/
def culturalBarriers : List (String × String) :=
  [("dating", "Dating apps face social stigma in some segments"),
   ("pet", "Pet culture is emerging but not mainstream"),
   ("subscription", "Subscription models face resistance"),
   ("premium", "Premium pricing requires strong value proposition")]

/-- The Western-concept list of `_score_cultural_fit`. -/
def westernConcepts : List String :=
  ["gym membership", "meal kit", "home security", "elderly care"]

/-- Rule branch of `_score_cultural_fit`. -/
def culturalFitRule (weights : List (String × ℚ)) (req : ScoringRequest) :
    DimensionScore :=
  let description := lowerStr req.startupDescription
  let combined := combinedText req
  let a1 := scanList combined highCulturalFitCategories
    (fun a cat =>
      { a with
        score := min 9 (a.score + 2)
        evidence := a.evidence ++
          ["Category " ++ cat ++ " has strong cultural precedent in India"] })
    { score := 5 }
  let a2 := culturalBarriers.foldl (fun a p =>
    if strContains combined p.1 then
      { a with
        score := max 3 (a.score - 2)
        warnings := a.warnings ++ [p.2]
        reasoning := a.reasoning ++ ["Potential cultural barrier: " ++ p.1] }
    else a) a1
  let a3 := scanList description westernConcepts
    (fun a concept =>
      { a with
        score := min 7 (a.score + 1)
        reasoning := a.reasoning ++
          ["Concept " ++ concept ++ " may need Indian adaptation"] }) a2
  { dimension := "cultural_fit"
    score := clamp110 a3.score
    weight := weightsGet weights "cultural_fit"
    reasoning := joinOrDefault a3.reasoning "Standard cultural assessment"
    confidence := 75 / 100
    evidence := a3.evidence
    warnings := a3.warnings }

/-- Rule branch of `_score_logistics`. -/
def logisticsRule (weights : List (String × ℚ)) (req : ScoringRequest) :
    DimensionScore :=
  let combined := combinedText req
  let a1 := scanList combined highLogisticsCategories
    (fun a cat =>
      { a with
        score := max 3 (a.score - 3)
        reasoning := a.reasoning ++
          ["Category " ++ cat ++ " requires complex logistics"]
        warnings := a.warnings ++
          ["Logistics complexity may be challenging in India"] })
    { score := 5 }
  let a2 := scanList combined lowLogisticsCategories
    (fun a cat =>
      { a with
        score := min 9 (a.score + 2)
        evidence := a.evidence ++ ["Category " ++ cat ++ " is primarily digital"] }) a1
  let a3 :=
    if anyIn combined ["offline", "physical store", "warehouse"] then
      { a2 with
        score := max 4 (a2.score - 2)
        warnings := a2.warnings ++
          ["Physical infrastructure requirements may be limiting"] }
    else a2
  let a4 :=
    if strContains combined "iot" || strContains combined "smart home" then
      { a3 with
        score := max 4 (a3.score - 1)
        reasoning := a3.reasoning ++ ["IoT devices require reliable connectivity"] }
    else a3
  { dimension := "logistics"
    score := clamp110 a4.score
    weight := weightsGet weights "logistics"
    reasoning := joinOrDefault a4.reasoning "Standard logistics assessment"
    confidence := 80 / 100
    evidence := a4.evidence
    warnings := a4.warnings }

/-- Rule branch of `_score_payment_readiness`. -/
def paymentReadinessRule (weights : List (String × ℚ)) (req : ScoringRequest) :
    DimensionScore :=
  let combined := combinedText req
  let a1 :=
    if anyIn combined ["b2b", "enterprise", "business", "sme"] then
      { RuleAcc.mk 5 [] [] [] with
        score := min 9 (5 + 2)
        evidence := ["B2B category - companies are willing to pay for value"] }
    else if anyIn combined ["b2c", "consumer", "individual"] then
      { RuleAcc.mk 5 [] [] [] with
        score := max 4 (5 - 2)
        reasoning := ["B2C category - consumer price sensitivity is high"] }
    else RuleAcc.mk 5 [] [] []
  let a2 := scanList combined highPaymentReadinessCategories
    (fun a cat =>
      { a with
        score := min 9 (a.score + 1)
        evidence := a.evidence ++
          ["Category " ++ cat ++ " has good payment readiness"] }) a1
  let a3 := scanList combined lowPaymentReadinessCategories
    (fun a cat =>
      { a with
        score := max 3 (a.score - 2)
        warnings := a.warnings ++
          ["Category " ++ cat ++ " has low payment willingness"] }) a2
  let a4 :=
    if strContains combined "freemium" || strContains combined "free" then
      { a3 with
        score := max 4 (a3.score - 1)
        reasoning := a3.reasoning ++
          ["Freemium model common, conversion to paid is challenging"] }
    else a3
  { dimension := "payment_readiness"
    score := clamp110 a4.score
    weight := weightsGet weights "payment_readiness"
    reasoning := joinOrDefault a4.reasoning "Standard payment assessment"
    confidence := 75 / 100
    evidence := a4.evidence
    warnings := a4.warnings }

/-- Rule branch of `_score_timing`. -/
def timingRule (weights : List (String × ℚ)) (req : ScoringRequest) :
    DimensionScore :=
  let combined := combinedText req
  let a1 := scanList combined timingRipeCategories
    (fun a cat =>
      { a with
        score := min 8 (a.score + 2)
        evidence := a.evidence ++ ["Category " ++ cat ++ " timing is favorable"] })
    { score := 5 }
  let a2 := scanList combined timingSaturatedCategories
    (fun a cat =>
      { a with
        score := max 3 (a.score - 3)
        reasoning := a.reasoning ++ ["Category " ++ cat ++ " may be saturated"]
        warnings := a.warnings ++
          ["Market may be crowded with established players"] }) a1
  let a3 := scanList combined timingEarlyCategories
    (fun a cat =>
      { a with
        score := max 3 (a.score - 1)
        reasoning := a.reasoning ++ ["Category " ++ cat ++ " may be early"]
        warnings := a.warnings ++ ["Market may not be ready"] }) a2
  { dimension := "timing"
    score := clamp110 a3.score
    weight := weightsGet weights "timing"
    reasoning := joinOrDefault a3.reasoning "Standard timing assessment"
    confidence := 70 / 100
    evidence := a3.evidence
    warnings := a3.warnings }

/-- Rule branch of `_score_monopoly_potential` (reads the description only;
produces no warnings). -/
def monopolyPotentialRule (weights : List (String × ℚ)) (req : ScoringRequest) :
    DimensionScore :=
  let description := lowerStr req.startupDescription
  let a1 :=
    if anyIn description ["marketplace", "network", "platform"] then
      { RuleAcc.mk 5 [] [] [] with
        score := min 9 (5 + 2)
        evidence := ["Platform business model with network effects potential"] }
    else RuleAcc.mk 5 [] [] []
  let a2 :=
    if anyIn description ["ai", "ml", "algorithm", "data"] then
      { a1 with
        score := min 8 (a1.score + 1)
        evidence := a1.evidence ++ ["AI/ML creates data moats"] }
    else a1
  let a3 :=
    if anyIn description ["workflow", "integration", "embedded"] then
      { a2 with
        score := min 8 (a2.score + 1)
        evidence := a2.evidence ++ ["Integration creates switching costs"] }
    else a2
  let a4 :=
    if anyIn description ["generic", "simple", "basic tool"] then
      { a3 with
        score := max 4 (a3.score - 2)
        reasoning := a3.reasoning ++ ["Category may have low differentiation"] }
    else a3
  { dimension := "monopoly_potential"
    score := clamp110 a4.score
    weight := weightsGet weights "monopoly_potential"
    reasoning := joinOrDefault a4.reasoning "Standard monopoly assessment"
    confidence := 70 / 100
    evidence := a4.evidence
    warnings := [] }

/-- Rule branch of `_score_regulatory_risk` (higher score = lower risk). -/
def regulatoryRiskRule (weights : List (String × ℚ)) (req : ScoringRequest) :
    DimensionScore :=
  let combined := combinedText req
  let a1 := scanList combined highRegulatoryRiskCategories
    (fun a cat =>
      { a with
        score := max 2 (a.score - 3)
        reasoning := a.reasoning ++
          ["Category " ++ cat ++ " has regulatory considerations"]
        warnings := a.warnings ++ ["Regulatory risk in " ++ cat ++ " sector"] })
    { score := 5 }
  let a2 :=
    if anyIn combined ["saas", "software", "tool", "productivity"] then
      { a1 with
        score := min 8 (a1.score + 2)
        evidence := a1.evidence ++
          ["Software categories typically have lower regulatory burden"] }
    else a1
  let a3 :=
    if anyIn combined ["data", "user data", "personal"] then
      { a2 with
        score := max 4 (a2.score - 1)
        reasoning := a2.reasoning ++ ["Data protection compliance required"] }
    else a2
  { dimension := "regulatory_risk"
    score := clamp110 a3.score
    weight := weightsGet weights "regulatory_risk"
    reasoning := joinOrDefault a3.reasoning "Standard regulatory assessment"
    confidence := 75 / 100
    evidence := a3.evidence
    warnings := a3.warnings }

/-- Rule branch of `_score_execution_feasibility` (reads the description
only; baseline 6). -/
def executionFeasibilityRule (weights : List (String × ℚ)) (req : ScoringRequest) :
    DimensionScore :=
  let description := lowerStr req.startupDescription
  let a1 :=
    if anyIn description ["blockchain", "crypto", "quantum"] then
      { RuleAcc.mk 6 [] [] [] with
        score := max 4 (6 - 2)
        reasoning := ["Specialized technical expertise required"] }
    else if anyIn description ["simple", "basic", "straightforward"] then
      { RuleAcc.mk 6 [] [] [] with
        score := min 9 (6 + 1)
        evidence := ["Relatively simple to execute"] }
    else RuleAcc.mk 6 [] [] []
  let a2 :=
    if anyIn description ["hardware", "physical", "manufacturing"] then
      { a1 with
        score := max 4 (a1.score - 2)
        reasoning := a1.reasoning ++
          ["Hardware/physical products require significant capital"] }
    else a1
  let a3 :=
    if anyIn description ["ai", "ml", "software", "mobile", "app"] then
      { a2 with
        score := min 9 (a2.score + 1)
        evidence := a2.evidence ++
          ["Strong software/Mobile development talent in India"] }
    else a2
  let a4 :=
    if anyIn description ["design", "ux", "creative"] then
      { a3 with
        score := max 5 (a3.score - 1)
        reasoning := a3.reasoning ++ ["Design talent may require urban focus"] }
    else a3
  { dimension := "execution_feasibility"
    score := clamp110 a4.score
    weight := weightsGet weights "execution_feasibility"
    reasoning := joinOrDefault a4.reasoning "Standard execution assessment"
    confidence := 75 / 100
    evidence := a4.evidence
    warnings := a4.warnings }

/-! ## Scorer state, delegation and fallback (`SevenDimensionScorer`)

The scorer instance state: the delegation flag `use_llm`, whether an OpenAI
client was constructed, the method label and the weight dict.  The external
reasoning provider (`client.chat.completions.create`) is modelled as an
oracle parameter: `some content` for a successful completion, `none` for any
exception. -/

structure ScorerState where
  useLlm : Bool
  hasClient : Bool
  method : String
  weights : List (String × ℚ)
deriving Repr

/-- Models `SevenDimensionScorer.__init__(use_llm, ...)`: the client exists only
when delegation is requested and an OpenAI key is configured, otherwise
`use_llm` is forced back to `False`; the weights are always the hard-coded
default dict — the constructor takes no weight argument, runs no validation
and cannot fail. -/
def scorerInit (useLlm hasOpenaiKey : Bool) : ScorerState :=
  { method := if useLlm then "llm_based" else "rule_based"
    useLlm := useLlm && hasOpenaiKey
    hasClient := useLlm && hasOpenaiKey
    weights := defaultWeights }

/-- The external reasoning provider: per dimension and request, a completion
text or a failure. -/
def Oracle : Type := String → ScoringRequest → Option String

/-- Value of a digit run (most significant first). -/
def digitsVal (cs : List Char) : ℕ :=
  cs.foldl (fun n c => n * 10 + (c.toNat - 48)) 0

/-- Models `re.search(r'(\d+)', content)`: the first maximal digit run of the text,
as a number. -/
def firstInt : List Char → Option ℕ
  | [] => none
  | c :: cs =>
      if c.isDigit then some (digitsVal ((c :: cs).takeWhile Char.isDigit))
      else firstInt cs

/-- The class attributes of `ScoringPrompt` (note: four dimensions use
abbreviated attribute names, so `getattr(ScoringPrompt, dim + "_prompt")`
fails for them). -/
def promptAttrNames : List String :=
  ["system_prompt", "cultural_fit_prompt", "logistics_prompt",
   "payment_prompt", "timing_prompt", "monopoly_prompt",
   "regulatory_prompt", "execution_prompt"]

/-- The `dimension_methods` dict of `_fallback_score`, mapping each dimension
name to its rule-based scorer. -/
def dimensionRuleMethod :
    List (String × (List (String × ℚ) → ScoringRequest → DimensionScore)) :=
  [("cultural_fit", culturalFitRule),
   ("logistics", logisticsRule),
   ("payment_readiness", paymentReadinessRule),
   ("timing", timingRule),
   ("monopoly_potential", monopolyPotentialRule),
   ("regulatory_risk", regulatoryRiskRule),
   ("execution_feasibility", executionFeasibilityRule)]

/-- Body of `_fallback_score`: dispatch to the dimension's rule method (with
the delegation flag just cleared, each `_score_<dim>` method takes its
rule-based branch), or the default score 5 for an unknown dimension. -/
def fallbackBody (st : ScorerState) (dim : String) (req : ScoringRequest) :
    Except String DimensionScore :=
  match dimensionRuleMethod.lookup dim with
  | some f => Except.ok (f st.weights req)
  | none => Except.ok
      { dimension := dim
        score := 5
        weight := weightsGet st.weights dim
        reasoning := "Default score (LLM unavailable)"
        confidence := 5 / 10 }

/-- The `try/finally` skeleton of `_fallback_score`: save `use_llm`, clear
it, run the body, and restore the saved value whether the body returns or
raises. -/
def tryFinallyRestore (st : ScorerState)
    (body : ScorerState → Except String DimensionScore) :
    Except String DimensionScore × ScorerState :=
  let st1 := { st with useLlm := false }
  (body st1, { st1 with useLlm := st.useLlm })

/-- Models `SevenDimensionScorer._fallback_score(request, dimension)`. -/
def fallbackScore (st : ScorerState) (dim : String) (req : ScoringRequest) :
    Except String DimensionScore × ScorerState :=
  tryFinallyRestore st (fun st1 => fallbackBody st1 dim req)

/-- Models `SevenDimensionScorer._llm_score_dimension(request, dimension)`: look up
the prompt template attribute (raising for the four mis-named dimensions),
call the provider, parse the first integer of the reply (default 5), clamp
into `[1, 10]`; on a provider exception fall back to the rule-based path. -/
def llmScoreDim (st : ScorerState) (oracle : Oracle) (dim : String)
    (req : ScoringRequest) : Except String DimensionScore × ScorerState :=
  if st.hasClient = false then
    (Except.error "OpenAI client not available", st)
  else if (promptAttrNames.contains (dim ++ "_prompt")) = false then
    (Except.error ("Unknown dimension: " ++ dim), st)
  else
    match oracle dim req with
    | some content =>
        (Except.ok
          { dimension := dim
            score := clamp110 (((firstInt content.data).getD 5 : ℕ) : ℤ)
            weight := weightsGet st.weights dim
            reasoning := String.mk (content.data.take 500)
            confidence := 85 / 100 }, st)
    | none => fallbackScore st dim req

/-- One `_score_<dim>(request)` call: delegate when `use_llm` and a client
are set, otherwise the dimension's rule-based branch (dispatched through the
same dimension-to-method table as `_fallback_score`; for the seven fixed
dimensions the lookup selects exactly the rule body of `_score_<dim>`). -/
def scoreDimS (st : ScorerState) (oracle : Oracle) (dim : String)
    (req : ScoringRequest) : Except String DimensionScore × ScorerState :=
  if st.useLlm && st.hasClient then llmScoreDim st oracle dim req
  else (fallbackBody st dim req, st)

/-- The seven dimensions in the order `score()` evaluates them
(the `ScoringDimension` enum values). -/
def scoringDimensions : List String :=
  ["cultural_fit", "logistics", "payment_readiness", "timing",
   "monopoly_potential", "regulatory_risk", "execution_feasibility"]

/-- One step of the dimension-scoring loop of `score()`: skip once an
exception has been raised, otherwise score the dimension and append. -/
def scoreStep (oracle : Oracle) (req : ScoringRequest)
    (acc : Except String (List (String × DimensionScore)) × ScorerState)
    (dim : String) :
    Except String (List (String × DimensionScore)) × ScorerState :=
  match acc with
  | (Except.error e, s) => (Except.error e, s)
  | (Except.ok ds, s) =>
      match scoreDimS s oracle dim req with
      | (Except.ok d, s2) => (Except.ok (ds ++ [(dim, d)]), s2)
      | (Except.error e, s2) => (Except.error e, s2)

/-- The dimension-scoring loop of `score()`: sequential, aborting at the
first raised exception (which the surrounding `try` turns into an error
response). -/
def scoreAllDims (st : ScorerState) (oracle : Oracle) (req : ScoringRequest) :
    Except String (List (String × DimensionScore)) × ScorerState :=
  scoringDimensions.foldl (scoreStep oracle req) (Except.ok [], st)

/-- Models `SevenDimensionScorer.score(request)`: validate, score all seven
dimensions, aggregate; a validation failure or a raised exception yields a
response with a non-empty error list and all score fields at their zero
defaults. -/
def scoreRequest (st : ScorerState) (oracle : Oracle) (req : ScoringRequest) :
    ScoringResponse × ScorerState :=
  match validateRequest req with
  | (false, err) =>
      ({ opportunityId := req.opportunityId
         errors := [err]
         method := st.method }, st)
  | (true, _) =>
      match scoreAllDims st oracle req with
      | (Except.error e, s2) =>
          ({ opportunityId := req.opportunityId
             errors := [e]
             method := st.method }, s2)
      | (Except.ok ds, s2) =>
          let overall := calculateOverallScore ds st.weights
          ({ opportunityId := req.opportunityId
             overallScore := overall
             dimensions := ds
             opportunityLevel := determineOpportunityLevel overall
             method := st.method
             errors := [] }, s2)

/-! ## Supporting lemmas for the scoring claims -/

theorem clamp110_bounds (s : ℤ) : 1 ≤ clamp110 s ∧ clamp110 s ≤ 10 := by
  unfold clamp110
  omega

theorem weightsGet_default_pos (dim : String) : 0 < weightsGet defaultWeights dim := by
  unfold weightsGet defaultWeights
  simp only [List.lookup]
  repeat' split
  all_goals norm_num

/-- Models `_fallback_score`'s body always returns a score in `[1, 10]` carrying the
dimension's table weight. -/
theorem fallbackBody_ok (st : ScorerState) (dim : String) (req : ScoringRequest) :
    ∃ d, fallbackBody st dim req = Except.ok d ∧
      1 ≤ d.score ∧ d.score ≤ 10 ∧ d.weight = weightsGet st.weights dim := by
  by_cases h1 : dim = "cultural_fit"
  · subst h1
    exact ⟨_, rfl, (clamp110_bounds _).1, (clamp110_bounds _).2, rfl⟩
  by_cases h2 : dim = "logistics"
  · subst h2
    exact ⟨_, rfl, (clamp110_bounds _).1, (clamp110_bounds _).2, rfl⟩
  by_cases h3 : dim = "payment_readiness"
  · subst h3
    exact ⟨_, rfl, (clamp110_bounds _).1, (clamp110_bounds _).2, rfl⟩
  by_cases h4 : dim = "timing"
  · subst h4
    exact ⟨_, rfl, (clamp110_bounds _).1, (clamp110_bounds _).2, rfl⟩
  by_cases h5 : dim = "monopoly_potential"
  · subst h5
    exact ⟨_, rfl, (clamp110_bounds _).1, (clamp110_bounds _).2, rfl⟩
  by_cases h6 : dim = "regulatory_risk"
  · subst h6
    exact ⟨_, rfl, (clamp110_bounds _).1, (clamp110_bounds _).2, rfl⟩
  by_cases h7 : dim = "execution_feasibility"
  · subst h7
    exact ⟨_, rfl, (clamp110_bounds _).1, (clamp110_bounds _).2, rfl⟩
  have hl : dimensionRuleMethod.lookup dim = none := by
    have b1 : (dim == "cultural_fit") = false := beq_eq_false_iff_ne.mpr h1
    have b2 : (dim == "logistics") = false := beq_eq_false_iff_ne.mpr h2
    have b3 : (dim == "payment_readiness") = false := beq_eq_false_iff_ne.mpr h3
    have b4 : (dim == "timing") = false := beq_eq_false_iff_ne.mpr h4
    have b5 : (dim == "monopoly_potential") = false := beq_eq_false_iff_ne.mpr h5
    have b6 : (dim == "regulatory_risk") = false := beq_eq_false_iff_ne.mpr h6
    have b7 : (dim == "execution_feasibility") = false := beq_eq_false_iff_ne.mpr h7
    simp [dimensionRuleMethod, List.lookup, b1, b2, b3, b4, b5, b6, b7]
  have heq : fallbackBody st dim req = Except.ok
      { dimension := dim
        score := 5
        weight := weightsGet st.weights dim
        reasoning := "Default score (LLM unavailable)"
        confidence := 5 / 10 } := by
    unfold fallbackBody
    rw [hl]
  exact ⟨_, heq, by norm_num, by norm_num, rfl⟩

/-- Every path of a `_score_<dim>` call leaves the scorer state unchanged
(the fallback's `finally` restores the toggled flag). -/
theorem scoreDimS_state (st : ScorerState) (oracle : Oracle) (dim : String)
    (req : ScoringRequest) : (scoreDimS st oracle dim req).2 = st := by
  unfold scoreDimS llmScoreDim fallbackScore tryFinallyRestore
  repeat' split
  all_goals rfl

/-- Every dimension score a `_score_<dim>` call returns is clamped into
`[1, 10]` and carries the dimension's table weight. -/
theorem scoreDimS_ok_bounds (st : ScorerState) (oracle : Oracle) (dim : String)
    (req : ScoringRequest) (d : DimensionScore) (s2 : ScorerState)
    (h : scoreDimS st oracle dim req = (Except.ok d, s2)) :
    1 ≤ d.score ∧ d.score ≤ 10 ∧ d.weight = weightsGet st.weights dim := by
  by_cases hf : st.useLlm && st.hasClient
  · rw [scoreDimS, if_pos hf] at h
    unfold llmScoreDim at h
    by_cases hc : st.hasClient = false
    · rw [if_pos hc] at h
      exact absurd (congrArg Prod.fst h) (by simp)
    · rw [if_neg hc] at h
      by_cases hp : (promptAttrNames.contains (dim ++ "_prompt")) = false
      · rw [if_pos hp] at h
        exact absurd (congrArg Prod.fst h) (by simp)
      · rw [if_neg hp] at h
        cases ho : oracle dim req with
        | some content =>
            simp only [ho] at h
            have hd := (Except.ok.inj (congrArg Prod.fst h)).symm
            rw [hd]
            exact ⟨(clamp110_bounds _).1, (clamp110_bounds _).2, rfl⟩
        | none =>
            simp only [ho] at h
            unfold fallbackScore tryFinallyRestore at h
            obtain ⟨d0, hd0, h1, h2, h3⟩ :=
              fallbackBody_ok { st with useLlm := false } dim req
            have hfst := congrArg Prod.fst h
            rw [show (Prod.fst (fallbackBody { st with useLlm := false } dim req,
              { st with useLlm := st.useLlm })) =
              fallbackBody { st with useLlm := false } dim req from rfl, hd0] at hfst
            have hd := Except.ok.inj hfst
            rw [← hd]
            exact ⟨h1, h2, h3⟩
  · rw [scoreDimS, if_neg hf] at h
    obtain ⟨d0, hd0, h1, h2, h3⟩ := fallbackBody_ok st dim req
    have hfst := congrArg Prod.fst h
    rw [show (Prod.fst (fallbackBody st dim req, st)) = fallbackBody st dim req
      from rfl, hd0] at hfst
    have hd := Except.ok.inj hfst
    rw [← hd]
    exact ⟨h1, h2, h3⟩

/-- A raised exception is carried unchanged through the rest of the
dimension loop. -/
theorem foldl_scoreStep_error (oracle : Oracle) (req : ScoringRequest)
    (dims : List String) (e : String) (s : ScorerState) :
    dims.foldl (scoreStep oracle req) (Except.error e, s) = (Except.error e, s) := by
  induction dims with
  | nil => rfl
  | cons d rest ih => simpa [List.foldl_cons, scoreStep] using ih

/-- Invariant of the dimension loop: on success the state is unchanged and
every produced entry is clamped and carries its dimension's table weight. -/
theorem foldl_scoreStep_ok (oracle : Oracle) (req : ScoringRequest)
    (dims : List String) :
    ∀ (st : ScorerState) (acc ds : List (String × DimensionScore)) (s2 : ScorerState),
      dims.foldl (scoreStep oracle req) (Except.ok acc, st) = (Except.ok ds, s2) →
      s2 = st ∧ ∀ p ∈ ds, p ∈ acc ∨
        (1 ≤ p.2.score ∧ p.2.score ≤ 10 ∧ p.2.weight = weightsGet st.weights p.1) := by
  induction dims with
  | nil =>
      intro st acc ds s2 h
      simp only [List.foldl_nil, Prod.mk.injEq] at h
      obtain ⟨hds, hs⟩ := h
      refine ⟨hs.symm, fun p hp => Or.inl ?_⟩
      rw [Except.ok.inj hds]
      exact hp
  | cons d rest ih =>
      intro st acc ds s2 h
      rw [List.foldl_cons] at h
      rcases hsd : scoreDimS st oracle d req with ⟨r, s3⟩
      have hs3 : s3 = st := by
        have hst := scoreDimS_state st oracle d req
        rw [hsd] at hst
        exact hst
      rw [hs3] at hsd
      clear hs3
      cases r with
      | error e =>
          have hstep : scoreStep oracle req (Except.ok acc, st) d =
              (Except.error e, st) := by
            simp [scoreStep, hsd]
          rw [hstep, foldl_scoreStep_error] at h
          exact absurd (congrArg Prod.fst h) (by simp)
      | ok dd =>
          have hstep : scoreStep oracle req (Except.ok acc, st) d =
              (Except.ok (acc ++ [(d, dd)]), st) := by
            simp [scoreStep, hsd]
          rw [hstep] at h
          obtain ⟨hs2, hall⟩ := ih st (acc ++ [(d, dd)]) ds s2 h
          refine ⟨hs2, fun p hp => ?_⟩
          rcases hall p hp with hin | hbound
          · rcases List.mem_append.mp hin with hin | hin
            · exact Or.inl hin
            · have hpd : p = (d, dd) := by simpa using hin
              subst hpd
              have hb := scoreDimS_ok_bounds st oracle d req dd st hsd
              exact Or.inr hb
          · exact Or.inr hbound

/-- On a successful scoring pass every dimension entry is clamped into
`[1, 10]` and carries the table weight for its name. -/
theorem scoreAllDims_ok_bounds (st : ScorerState) (oracle : Oracle)
    (req : ScoringRequest) (ds : List (String × DimensionScore)) (s2 : ScorerState)
    (h : scoreAllDims st oracle req = (Except.ok ds, s2)) :
    ∀ p ∈ ds, 1 ≤ p.2.score ∧ p.2.score ≤ 10 ∧
      p.2.weight = weightsGet st.weights p.1 := by
  obtain ⟨_, hall⟩ := foldl_scoreStep_ok oracle req scoringDimensions st [] ds s2 h
  intro p hp
  rcases hall p hp with hin | hb
  · exact absurd hin (List.not_mem_nil p)
  · exact hb

theorem foldl_pair_sum {β : Type} (f g : β → ℚ) (l : List β) (a b : ℚ) :
    l.foldl (fun t p => (t.1 + f p, t.2 + g p)) (a, b) =
      (a + (l.map f).sum, b + (l.map g).sum) := by
  induction l generalizing a b with
  | nil => simp
  | cons x xs ih => simp [List.foldl_cons, ih, add_assoc]

/-- Bounds for `calculate_overall_score`: every dimension score in `[1, 10]`
with a positive effective weight puts the aggregate into `[0, 1]`. -/
theorem calculateOverallScore_bounds (dims : List (String × DimensionScore))
    (weights : List (String × ℚ))
    (h : ∀ p ∈ dims, (1 ≤ p.2.score ∧ p.2.score ≤ 10) ∧
      0 < effectiveWeight weights p) :
    0 ≤ calculateOverallScore dims weights ∧
      calculateOverallScore dims weights ≤ 1 := by
  unfold calculateOverallScore
  by_cases hd : dims = []
  · rw [if_pos hd]
    norm_num
  · rw [if_neg hd]
    rw [foldl_pair_sum (fun p => (p.2.score : ℚ) * effectiveWeight weights p)
      (fun p => effectiveWeight weights p) dims 0 0]
    simp only [zero_add]
    set tw := (dims.map (fun p => (p.2.score : ℚ) * effectiveWeight weights p)).sum with htw
    set tW := (dims.map (fun p => effectiveWeight weights p)).sum with htW
    have htWpos : 0 < tW := by
      rw [htW]
      apply List.sum_pos
      · intro w hw
        rcases List.mem_map.mp hw with ⟨p, hp, rfl⟩
        exact (h p hp).2
      · simpa using hd
    have htwnonneg : 0 ≤ tw := by
      rw [htw]
      apply List.sum_nonneg
      intro w hw
      rcases List.mem_map.mp hw with ⟨p, hp, rfl⟩
      have h1 := (h p hp).1.1
      have h2 := (h p hp).2
      have : (0 : ℚ) ≤ (p.2.score : ℚ) := by
        have : (1 : ℚ) ≤ (p.2.score : ℚ) := by exact_mod_cast h1
        linarith
      positivity
    have htwle : tw ≤ 10 * tW := by
      rw [htw, htW, ← List.sum_map_mul_left]
      apply List.sum_le_sum
      intro p hp
      have h2 := (h p hp).1.2
      have hw := (h p hp).2
      have hsc : ((p.2.score : ℚ)) ≤ 10 := by exact_mod_cast h2
      exact mul_le_mul_of_nonneg_right hsc (le_of_lt hw)
    rw [if_neg (ne_of_gt htWpos)]
    constructor
    · positivity
    · rw [div_le_one (by norm_num : (0 : ℚ) < 10)]
      rw [div_le_iff₀ htWpos]
      linarith

/-! ## Claim theorems: dimension scorer -/

/-- Claim C1: `SevenDimensionScorer.__init__` performs no weight-sum
validation and cannot reject: for every configuration it succeeds and
assigns the hard-coded default weight dict (so no non-unit weight sum can
arise, but no fail-fast check exists either); the default weights
(six dimensions at 0.15, monopoly_potential at 0.10) sum to exactly 1. -/
theorem scorerInit_no_validation :
    (∀ u k : Bool, (scorerInit u k).weights = defaultWeights) ∧
    ((defaultWeights.map Prod.snd).sum = 1) := by
  constructor
  · intro u k
    rfl
  · norm_num [defaultWeights]

/-- Claim C10: The `try/finally` of `_fallback_score` restores `use_llm` to
its pre-call value whatever the body does — also when the body raises — and
a fallback call returns the scorer state it started from. -/
theorem fallback_restores_use_llm :
    (∀ (st : ScorerState) (body : ScorerState → Except String DimensionScore),
      ((tryFinallyRestore st body).2).useLlm = st.useLlm) ∧
    (∀ (st : ScorerState) (dim : String) (req : ScoringRequest),
      (fallbackScore st dim req).2 = st) := by
  constructor
  · intro st body
    rfl
  · intro st dim req
    rfl

/-- Claim C9: For every constructible scorer, oracle behaviour and request,
every dimension score in the response lies in `[1, 10]` and the overall
score lies in `[0, 1]`. -/
theorem score_bounds (u k : Bool) (oracle : Oracle) (req : ScoringRequest) :
    (∀ p ∈ (scoreRequest (scorerInit u k) oracle req).1.dimensions,
      1 ≤ p.2.score ∧ p.2.score ≤ 10) ∧
    0 ≤ (scoreRequest (scorerInit u k) oracle req).1.overallScore ∧
    (scoreRequest (scorerInit u k) oracle req).1.overallScore ≤ 1 := by
  rcases hv : validateRequest req with ⟨b, msg⟩
  cases b
  · constructor
    · intro p hp
      simp [scoreRequest, hv] at hp
    · constructor <;> simp [scoreRequest, hv]
  · rcases hall : scoreAllDims (scorerInit u k) oracle req with ⟨r, s2⟩
    cases r with
    | error e =>
        constructor
        · intro p hp
          simp [scoreRequest, hv, hall] at hp
        · constructor <;> simp [scoreRequest, hv, hall]
    | ok ds =>
        have hb := scoreAllDims_ok_bounds (scorerInit u k) oracle req ds s2 hall
        have hcalc := calculateOverallScore_bounds ds (scorerInit u k).weights
          (fun p hp => by
            obtain ⟨h1, h2, hw⟩ := hb p hp
            have hwpos : 0 < p.2.weight := by
              rw [hw]
              exact weightsGet_default_pos p.1
            refine ⟨⟨h1, h2⟩, ?_⟩
            rw [effectiveWeight, if_neg (ne_of_gt hwpos)]
            exact hwpos)
        constructor
        · intro p hp
          have hpd : p ∈ ds := by
            simpa [scoreRequest, hv, hall] using hp
          exact ⟨(hb p hpd).1, (hb p hpd).2.1⟩
        · have hov : (scoreRequest (scorerInit u k) oracle req).1.overallScore =
              calculateOverallScore ds (scorerInit u k).weights := by
            simp [scoreRequest, hv, hall]
          rw [hov]
          exact hcalc

/-- Request used by the scoring witnesses (all required fields present). -/
def reqC8 : ScoringRequest :=
  { opportunityId := "opp-1"
    startupName := "VoiceFlow"
    startupDescription := "ai voice agents" }

/-- Request with an empty `startup_name`. -/
def reqMissingName : ScoringRequest :=
  { opportunityId := "opp-2"
    startupName := ""
    startupDescription := "payment gateway" }

/-- Oracle whose every call fails (provider exception). -/
def oracleNone : Oracle := fun _ _ => none

/-- Witness for `score_bounds`: the rule-mode response to `reqC8` has its
cultural_fit dimension as first entry, whose score the theorem bounds, and
an overall score in `[0, 1]`. -/
theorem score_bounds_witness :
    (1 ≤ (culturalFitRule defaultWeights reqC8).score ∧
      (culturalFitRule defaultWeights reqC8).score ≤ 10) ∧
    0 ≤ (scoreRequest (scorerInit false false) oracleNone reqC8).1.overallScore ∧
    (scoreRequest (scorerInit false false) oracleNone reqC8).1.overallScore ≤ 1 := by
  have h := score_bounds false false oracleNone reqC8
  have hmem : ("cultural_fit", culturalFitRule defaultWeights reqC8) ∈
      (scoreRequest (scorerInit false false) oracleNone reqC8).1.dimensions := by
    exact List.mem_cons_self _ _
  exact ⟨h.1 _ hmem, h.2⟩

/-- In rule mode the whole dimension loop succeeds with an unchanged
state (every `_score_<dim>` takes its total rule-based branch). -/
theorem foldl_scoreStep_rule_ok (oracle : Oracle) (req : ScoringRequest)
    (dims : List String) :
    ∀ (st : ScorerState), st.useLlm = false →
      ∀ acc, ∃ ds, dims.foldl (scoreStep oracle req) (Except.ok acc, st) =
        (Except.ok ds, st) := by
  induction dims with
  | nil =>
      intro st _ acc
      exact ⟨acc, rfl⟩
  | cons d rest ih =>
      intro st h acc
      have hr : scoreDimS st oracle d req = (fallbackBody st d req, st) := by
        rw [scoreDimS, if_neg]
        simp [h]
      obtain ⟨d0, hd0, _, _, _⟩ := fallbackBody_ok st d req
      have hstep : scoreStep oracle req (Except.ok acc, st) d =
          (Except.ok (acc ++ [(d, d0)]), st) := by
        simp [scoreStep, hr, hd0]
      rw [List.foldl_cons, hstep]
      exact ih st h (acc ++ [(d, d0)])

/-- In delegation mode (`use_llm` with a client), a dimension whose prompt
template attribute exists always scores successfully — through the provider
reply or the rule-based fallback — with the state unchanged. -/
theorem scoreDimS_llm_prompt_ok (oracle : Oracle) (dim : String)
    (req : ScoringRequest)
    (hdim : promptAttrNames.contains (dim ++ "_prompt") = true) :
    ∃ d, scoreDimS (scorerInit true true) oracle dim req =
      (Except.ok d, scorerInit true true) := by
  rw [scoreDimS, if_pos (by decide), llmScoreDim, if_neg (by decide),
    if_neg (by rw [hdim]; exact fun hcon => Bool.noConfusion hcon)]
  cases ho : oracle dim req with
  | some content =>
      exact ⟨_, rfl⟩
  | none =>
      obtain ⟨d0, hd0, _, _, _⟩ :=
        fallbackBody_ok { scorerInit true true with useLlm := false } dim req
      refine ⟨d0, ?_⟩
      show (fallbackBody { scorerInit true true with useLlm := false } dim req,
        scorerInit true true) = _
      rw [hd0]

/-- Claim C8: Requests missing a required identifying field never throw: they
yield a response with a non-empty error list and a zero overall score, in
every configuration.  In rule mode every valid request gets an empty error
list.  But in delegation mode the prompt-template lookup
`getattr(ScoringPrompt, "payment_readiness_prompt")` fails (the attribute is
named `payment_prompt`), so every request — the valid ones included — gets a
non-empty error list and a zero overall score, contradicting the claim. -/
theorem score_validation_and_prompt_gap :
    (∀ (st : ScorerState) (oracle : Oracle) (req : ScoringRequest),
      (req.opportunityId = "" ∨ req.startupName = "" ∨ req.startupDescription = "") →
      (scoreRequest st oracle req).1.errors ≠ [] ∧
      (scoreRequest st oracle req).1.overallScore = 0) ∧
    (∀ (oracle : Oracle) (req : ScoringRequest),
      validateRequest req = (true, "") →
      (scoreRequest (scorerInit false false) oracle req).1.errors = []) ∧
    (∀ oracle : Oracle,
      validateRequest reqC8 = (true, "") ∧
      (scoreRequest (scorerInit true true) oracle reqC8).1.errors =
        ["Unknown dimension: payment_readiness"] ∧
      (scoreRequest (scorerInit true true) oracle reqC8).1.overallScore = 0) := by
  refine ⟨?_, ?_, ?_⟩
  · intro st oracle req hmiss
    have hv1 : (validateRequest req).1 = false := by
      unfold validateRequest
      split_ifs <;> simp_all
    rcases hv : validateRequest req with ⟨b, msg⟩
    rw [hv] at hv1
    simp only at hv1
    subst hv1
    constructor <;> simp [scoreRequest, hv]
  · intro oracle req hvr
    obtain ⟨ds, hds⟩ :=
      foldl_scoreStep_rule_ok oracle req scoringDimensions (scorerInit false false) rfl []
    have hall : scoreAllDims (scorerInit false false) oracle req =
        (Except.ok ds, scorerInit false false) := hds
    simp [scoreRequest, hvr, hall]
  · intro oracle
    obtain ⟨d1, hd1⟩ := scoreDimS_llm_prompt_ok oracle "cultural_fit" reqC8 (by decide)
    obtain ⟨d2, hd2⟩ := scoreDimS_llm_prompt_ok oracle "logistics" reqC8 (by decide)
    have hd3 : scoreDimS (scorerInit true true) oracle "payment_readiness" reqC8 =
        (Except.error "Unknown dimension: payment_readiness", scorerInit true true) := by
      rw [scoreDimS, if_pos (by decide), llmScoreDim, if_neg (by decide),
        if_pos (by decide)]
      rfl
    have hmain : scoreAllDims (scorerInit true true) oracle reqC8 =
        (Except.error "Unknown dimension: payment_readiness", scorerInit true true) := by
      simp only [scoreAllDims, scoringDimensions, List.foldl]
      rw [show scoreStep oracle reqC8 (Except.ok [], scorerInit true true)
          "cultural_fit" = (Except.ok [("cultural_fit", d1)], scorerInit true true) by
        simp [scoreStep, hd1]]
      rw [show scoreStep oracle reqC8
          (Except.ok [("cultural_fit", d1)], scorerInit true true) "logistics" =
          (Except.ok [("cultural_fit", d1), ("logistics", d2)], scorerInit true true) by
        simp [scoreStep, hd2]]
      rw [show scoreStep oracle reqC8
          (Except.ok [("cultural_fit", d1), ("logistics", d2)], scorerInit true true)
          "payment_readiness" =
          (Except.error "Unknown dimension: payment_readiness", scorerInit true true) by
        simp [scoreStep, hd3]]
      rfl
    refine ⟨by decide, ?_, ?_⟩ <;>
      simp [scoreRequest, hmain, show validateRequest reqC8 = (true, "") from by decide]

/-- Witness for `score_validation_and_prompt_gap` at concrete requests and
the always-failing oracle. -/
theorem score_validation_and_prompt_gap_witness :
    (scoreRequest (scorerInit false false) oracleNone reqMissingName).1.errors ≠ [] ∧
    (scoreRequest (scorerInit false false) oracleNone reqC8).1.errors = [] ∧
    (scoreRequest (scorerInit true true) oracleNone reqC8).1.errors =
      ["Unknown dimension: payment_readiness"] := by
  have h := score_validation_and_prompt_gap
  exact ⟨(h.1 (scorerInit false false) oracleNone reqMissingName
      (Or.inr (Or.inl rfl))).1,
    h.2.1 oracleNone reqC8 (by decide),
    (h.2.2 oracleNone).2.1⟩

/-! ## On-the-fly TF-IDF fit (`text_processor.py`)

`TextProcessor._tfidf_similarity` with no fitted vectorizer first calls
`create_tfidf_vectorizer([text1, text2])` — *outside* its `try/except` — and
that call fits a scikit-learn `TfidfVectorizer(max_df=0.95, min_df=1, ...)`
on the two documents.  The library's fit builds the vocabulary from the
analyzed documents (raising when it is empty) and then prunes every term
whose document frequency exceeds `max_df * n_documents` (and keeps only
those reaching `min_df`), raising when no term survives.  The analyzer
(`clean_text` composed with scikit-learn tokenization, English stop words
and 1–2-grams) is abstracted as the parameter `analyze`; the theorem below
holds for every analyzer.  `max_features` selection would only run after
this pruning, so it cannot prevent the error. -/

/-- Number of documents (as distinct-term sets) containing the term. -/
def documentFrequency (termSets : List (List String)) (t : String) : ℕ :=
  (termSets.filter (fun s => s.contains t)).length

/-- The vocabulary-building and pruning phase of `TfidfVectorizer.fit`,
with scikit-learn's documented `max_df`/`min_df` semantics: keep a term
iff `min_df ≤ df` and `df ≤ max_df · n`; raise on an empty vocabulary and
when pruning removes every term. -/
def tfidfFitVocabulary (analyze : String → List String) (maxDf : ℚ)
    (minDf : ℕ) (docs : List String) : Except String (List String) :=
  let termSets := docs.map (fun d => (analyze d).dedup)
  let vocabulary := termSets.flatten.dedup
  if vocabulary = [] then
    Except.error "empty vocabulary; perhaps the documents only contain stop words"
  else
    let kept := vocabulary.filter (fun tm =>
      decide ((documentFrequency termSets tm : ℚ) ≤ maxDf * (docs.length : ℚ)) &&
      decide (minDf ≤ documentFrequency termSets tm))
    if kept = [] then
      Except.error "After pruning, no terms remain. Try a lower min_df or a higher max_df."
    else Except.ok kept

/-- Models `TextProcessor.create_tfidf_vectorizer(texts)` with its defaults
`max_df=0.95`, `min_df=1`: the fit performed by `_tfidf_similarity` on the
two compared texts when no corpus has been fitted.  This call sits outside
the `try/except` of `_tfidf_similarity`, so its exception propagates out of
`calculate_similarity` and `compare`. -/
def createTfidfVectorizer (analyze : String → List String)
    (texts : List String) : Except String (List String) :=
  tfidfFitVocabulary analyze (95 / 100) 1 texts

/-- Claim C5 (code evaluation): Fitting the on-the-fly two-document corpus on
two *identical* documents always raises, whatever the analyzer: every term
occurs in both documents, so its document frequency 2 exceeds
`max_df · n = 0.95 · 2 = 1.9` and is pruned (and an empty analysis raises
the empty-vocabulary error instead).  Hence `compare(A, A)` with no fitted
corpus raises rather than returning lexical similarity 1.0. -/
theorem tfidf_fresh_fit_identical_fails (analyze : String → List String)
    (t : String) :
    ∃ msg, createTfidfVectorizer analyze [t, t] = Except.error msg := by
  unfold createTfidfVectorizer tfidfFitVocabulary
  simp only [List.map]
  by_cases hv : (([(analyze t).dedup, (analyze t).dedup] : List (List String)).flatten).dedup = []
  · rw [if_pos hv]
    exact ⟨_, rfl⟩
  · rw [if_neg hv]
    have hkept : ((([(analyze t).dedup, (analyze t).dedup] :
        List (List String)).flatten).dedup).filter (fun tm =>
          decide ((documentFrequency [(analyze t).dedup, (analyze t).dedup] tm : ℚ) ≤
            (95 / 100) * (([t, t] : List String).length : ℚ)) &&
          decide (1 ≤ documentFrequency [(analyze t).dedup, (analyze t).dedup] tm)) = [] := by
      rw [List.filter_eq_nil_iff]
      intro tm hm
      have htm : tm ∈ (analyze t).dedup := by
        rw [List.mem_dedup] at hm
        simpa using hm
      have hdf : documentFrequency [(analyze t).dedup, (analyze t).dedup] tm = 2 := by
        unfold documentFrequency
        have hdec : decide (tm ∈ analyze t) = true :=
          decide_eq_true (List.mem_dedup.mp htm)
        simp [List.filter, hdec]
      rw [Bool.and_eq_true, decide_eq_true_eq, decide_eq_true_eq, hdf]
      intro ⟨hle, _⟩
      norm_num at hle
    rw [if_pos hkept]
    exact ⟨_, rfl⟩

end Indogap
